import Mathlib

/-!
Verification development for the one-vote real-effort tax game
(`one_vote_game/__init__.py`).

The Python module is embedded shallowly:
* oTree currency / float arithmetic is modelled over `ℚ`;
* the per-player puzzle store (`Puzzle.filter(player=...)`) is a `List PuzzleRec`;
* the pluggable task module (`generate_puzzle_fields`, `is_correct`) is an
  injected `TaskModule`;
* the random draws of `set_payoffs` / `assign_treatment` are injected as
  explicit arguments;
* a Python `raise` is an `Except.error`; the state returned next to the error
  is the state of the mutated objects at the moment the exception is thrown
  (mutations performed before the `raise` have already happened).
-/

namespace OneVote

-- The `Constants(BaseConstants)` class of the module.
namespace Constants

def players_per_group : ℕ := 3

def vote_round : ℕ := 2

def num_rounds : ℕ := 2 * vote_round - 1

/-- `tax_rate = 0.4` -/
def tax_rate : ℚ := 4 / 10

/-- `redistribution_multiplier = 0.5` -/
def redistribution_multiplier : ℚ := 5 / 10

/-- `penalty_multiplier = 1 / tax_rate` -/
def penalty_multiplier : ℚ := 1 / tax_rate

/-- `default_audit_prob = 0.2` -/
def default_audit_prob : ℚ := 2 / 10

/-- `modified_audit_prob = 0.5` -/
def modified_audit_prob : ℚ := 5 / 10

def real_effort_multiplier : ℚ := 100

end Constants

/-- `session.params`, resolved once by `creating_session`.
`max_iterations` is `None` (no cap) or an integer, as in the Python config.
`debug` models `settings.DEBUG`. -/
structure Params where
  retry_delay : ℚ
  puzzle_delay : ℚ
  attempts_per_puzzle : ℕ
  max_iterations : Option ℕ
  debug : Bool
deriving DecidableEq

/-- The progress fields of the `Player` model mutated by `play_game`.
`num_trials` / `num_correct` / `num_failed` are `Int` because the code
decrements them (the retry-undo step), so they are not obviously
nonnegative. -/
structure PlayerState where
  iteration : ℕ
  num_trials : Int
  num_correct : Int
  num_failed : Int
deriving DecidableEq

/-- One row of the `Puzzle(ExtraModel)` table.  `response`,
`response_timestamp` and `is_correct` are nullable fields (`none` until the
puzzle is first answered), exactly as in the oTree model. -/
structure PuzzleRec where
  iteration : ℕ
  attempts : ℕ
  timestamp : ℚ
  text : String
  solution : String
  response : Option String
  response_timestamp : Option ℚ
  is_correct : Option Bool
deriving DecidableEq

/-- Per-player game state: the player row plus that player's rows of the
puzzle store. -/
structure GState where
  player : PlayerState
  puzzles : List PuzzleRec
deriving DecidableEq

/-- The injected task module: `generate_puzzle_fields` (here indexed by the
iteration number of the puzzle being created, so that runs are
deterministic) and `is_correct(answer, puzzle)`. -/
structure TaskModule where
  gen_fields : ℕ → String × String
  is_correct : String → PuzzleRec → Bool

/-- The `progress` dict built by `get_progress`. -/
structure Progress where
  num_trials : Int
  num_correct : Int
  num_incorrect : Int
  iteration : ℕ
deriving DecidableEq

/-- Inbound live messages.  `answer none` stands for an `answer` message whose
`answer` field is `None`/absent (the code treats both as bogus at the same
program point). -/
inductive Message where
  | load : Message
  | cheat : Message
  | next : Message
  | answer : Option String → Message
  | other : Message
deriving DecidableEq

/-- Outbound live replies.  `encode_puzzle` (image rendering, external) is
modelled by returning the puzzle record itself. -/
inductive Reply where
  | status : Progress → Option PuzzleRec → Option ℕ → Reply
  | puzzleMsg : PuzzleRec → Progress → Reply
  | feedback : Bool → Int → Progress → Reply
  | solution : String → Reply
deriving DecidableEq

/-- `get_progress(player)` -/
def get_progress (pl : PlayerState) : Progress :=
  { num_trials := pl.num_trials
    num_correct := pl.num_correct
    num_incorrect := pl.num_failed
    iteration := pl.iteration }

/-- `generate_puzzle(player)`: increments `player.iteration`, then creates a
puzzle row carrying the new iteration value and the task module's fields. -/
def generate_puzzle (tm : TaskModule) (now : ℚ) (st : GState) : GState × PuzzleRec :=
  let it := st.player.iteration + 1
  let f := tm.gen_fields it
  let z : PuzzleRec :=
    { iteration := it
      attempts := 0
      timestamp := now
      text := f.1
      solution := f.2
      response := none
      response_timestamp := none
      is_correct := none }
  ({ player := { st.player with iteration := it }, puzzles := st.puzzles ++ [z] }, z)

/-- `get_current_puzzle(player)`: filters the store by
`iteration == player.iteration`.  The Python `[puzzle] = puzzles`
destructuring raises if more than one row matches; that crash is the
`Except.error` case. -/
def get_current_puzzle (st : GState) : Except String (Option PuzzleRec) :=
  match st.puzzles.filter (fun z => z.iteration == st.player.iteration) with
  | [] => Except.ok none
  | [z] => Except.ok (some z)
  | _ => Except.error "too many values to unpack"

/-- `play_game(player, message)`.  Returns the final state of the mutated
player / puzzle rows together with either the reply dict or the exception
message.  On an exception the returned state is whatever the code had
already mutated before raising. -/
def play_game (params : Params) (tm : TaskModule) (now : ℚ) (st : GState)
    (msg : Message) : GState × Except String Reply :=
  match get_current_puzzle st with
  | Except.error e => (st, Except.error e)
  | Except.ok current =>
    match msg with
    | Message.load =>
      (st, Except.ok (Reply.status (get_progress st.player) current none))
    | Message.cheat =>
      if params.debug then
        match current with
        | some z => (st, Except.ok (Reply.solution z.solution))
        | none => (st, Except.error "no attribute solution")
      else
        (st, Except.error "unrecognized message from client")
    | Message.next =>
      match current with
      | some cur =>
        match cur.response with
        | none => (st, Except.error "trying to skip over unsolved puzzle")
        | some _ =>
          if now < cur.timestamp + params.puzzle_delay then
            (st, Except.error "retrying too fast")
          else if some cur.iteration = params.max_iterations then
            (st, Except.ok (Reply.status (get_progress st.player) none (some 0)))
          else
            let g := generate_puzzle tm now st
            (g.1, Except.ok (Reply.puzzleMsg g.2 (get_progress g.1.player)))
      | none =>
        let g := generate_puzzle tm now st
        (g.1, Except.ok (Reply.puzzleMsg g.2 (get_progress g.1.player)))
    | Message.answer ans =>
      match current with
      | none => (st, Except.error "trying to answer no puzzle")
      | some cur =>
        -- retry pre-checks and the undo of the previous attempt's counters
        let undo : Except String PlayerState :=
          match cur.response with
          | some _ =>
            if params.attempts_per_puzzle ≤ cur.attempts then
              Except.error "no more attempts allowed"
            else
              match cur.response_timestamp with
              | none => Except.error "unsupported operand"
              | some rts =>
                if now < rts + params.retry_delay then
                  Except.error "retrying too fast"
                else
                  Except.ok
                    (if cur.is_correct = some true then
                      { st.player with
                          num_trials := st.player.num_trials - 1
                          num_correct := st.player.num_correct - 1 }
                    else
                      { st.player with
                          num_trials := st.player.num_trials - 1
                          num_failed := st.player.num_failed - 1 })
          | none => Except.ok st.player
        match undo with
        | Except.error e => (st, Except.error e)
        | Except.ok pl =>
          let st1 : GState := { player := pl, puzzles := st.puzzles }
          match ans with
          | none => (st1, Except.error "bogus answer")
          | some a =>
            if a = "" then
              (st1, Except.error "bogus answer")
            else
              let cur1 := { cur with response := some a }
              let isc := tm.is_correct a cur1
              let cur2 :=
                { cur1 with
                    is_correct := some isc
                    response_timestamp := some now
                    attempts := cur.attempts + 1 }
              let pl' :=
                if isc then
                  { pl with
                      num_correct := pl.num_correct + 1
                      num_trials := pl.num_trials + 1 }
                else
                  { pl with
                      num_failed := pl.num_failed + 1
                      num_trials := pl.num_trials + 1 }
              let st2 : GState :=
                { player := pl'
                  puzzles :=
                    st1.puzzles.map
                      (fun z => if z.iteration == st.player.iteration then cur2 else z) }
              let retries_left : Int :=
                (params.attempts_per_puzzle : Int) - (cur2.attempts : Int)
              (st2, Except.ok (Reply.feedback isc retries_left (get_progress pl')))
    | Message.other => (st, Except.error "unrecognized message from client")

/-- Per-player inputs read by `set_payoffs`. -/
structure EconPlayer where
  real_effort_income : ℚ
  reported_income : ℚ
deriving DecidableEq

/-- Per-player fields written by `set_payoffs`.  `if_audited` keeps the
`1`/`0` integer codes of the source (`indice[0]`). -/
structure SettledPlayer where
  real_effort_income : ℚ
  reported_income : ℚ
  tax_paid : ℚ
  if_audited : ℕ
  payoff : ℚ
deriving DecidableEq

/-- Group fields written by `set_payoffs`. -/
structure SettledGroup where
  total_tax_paid : ℚ
  individual_share : ℚ
deriving DecidableEq

/-- `set_payoffs(group)` for the three group members.  The per-player
Bernoulli audit draws (`random.choices([1,0], weights=[audit_weight, ...])`)
are injected as `audit : Fin 3 → Bool` (`true` means the draw produced `1`). -/
def set_payoffs (audit : Fin 3 → Bool) (ps : Fin 3 → EconPlayer) :
    SettledGroup × (Fin 3 → SettledPlayer) :=
  -- first loop: p.tax_paid and p.if_audited for every player
  let tax_paid : Fin 3 → ℚ := fun i => (ps i).reported_income * Constants.tax_rate
  let if_audited : Fin 3 → ℕ := fun i => if audit i then 1 else 0
  -- group_tax_paid = [p.tax_paid for p in players]; total = sum(...)
  let total_tax_paid : ℚ := tax_paid 0 + tax_paid 1 + tax_paid 2
  let individual_share : ℚ :=
    total_tax_paid * Constants.redistribution_multiplier / (Constants.players_per_group : ℚ)
  -- second loop: payoffs, with the audit penalty for if_audited == 1
  let settle : Fin 3 → SettledPlayer := fun i =>
    { real_effort_income := (ps i).real_effort_income
      reported_income := (ps i).reported_income
      tax_paid := tax_paid i
      if_audited := if_audited i
      payoff :=
        if if_audited i = 1 then
          (ps i).real_effort_income - tax_paid i + individual_share -
            Constants.penalty_multiplier * Constants.tax_rate *
              ((ps i).real_effort_income - (ps i).reported_income)
        else
          (ps i).real_effort_income - tax_paid i + individual_share }
  ({ total_tax_paid := total_tax_paid, individual_share := individual_share }, settle)

/-- Group fields written by `assign_treatment`. -/
structure TreatGroup where
  total_if_vote : ℕ
  treatment : String
  if_override : Bool
deriving DecidableEq

/-- `assign_treatment(group)`.  The two fair-coin draws are injected:
`computer_control` is the override coin, `dice` picks the exogenous label
when the override fires (`true` means the draw produced `1`). -/
def assign_treatment (computer_control dice : Bool) (votes : Fin 3 → Bool) :
    TreatGroup :=
  -- total_if_vote = sum(group_if_vote)
  let total : ℕ :=
    (if votes 0 then 1 else 0) + (if votes 1 then 1 else 0) + (if votes 2 then 1 else 0)
  -- endogenous outcome: total > players_per_group / 2 (Python true division)
  let endo : String :=
    if (total : ℚ) > (Constants.players_per_group : ℚ) / 2 then "EndoYes" else "EndoNo"
  if computer_control then
    { total_if_vote := total
      treatment := if dice then "ExoYes" else "ExoNo"
      if_override := true }
  else
    { total_if_vote := total
      treatment := endo
      if_override := false }

/-- The state read by `Game.before_next_page`.  `vote_round_treatment` is the
value of `group.in_round(Constants.vote_round).treatment`; `iteration` is
the player's puzzle counter (never read by the function, recorded here so
that exhaustion of the iteration budget is expressible). -/
structure RoundCtx where
  round_number : ℕ
  vote_round_treatment : String
  num_correct : Int
  iteration : ℕ
  timeout_happened : Bool
  max_iterations : Option ℕ
deriving DecidableEq

/-- The fields written by `Game.before_next_page`.  `treatment` is `none`
when the function does not assign `group.treatment` (rounds before the vote
round). -/
structure RoundOut where
  real_effort_income : ℚ
  treatment : Option String
  audit_weight : ℚ
deriving DecidableEq

/-- Python truthiness of the nullable integer `params['max_iterations']`:
`not max_iterations` holds for `None` and for `0`. -/
def optFalsy : Option ℕ → Bool
  | none => true
  | some 0 => true
  | some (_ + 1) => false

/-- `Game.before_next_page(player, timeout_happened)`. -/
def before_next_page (ctx : RoundCtx) : Except String RoundOut :=
  if !ctx.timeout_happened && optFalsy ctx.max_iterations then
    Except.error "malicious page submission"
  else
    let income : ℚ := (ctx.num_correct : ℚ) * Constants.real_effort_multiplier
    if ctx.round_number < Constants.vote_round then
      Except.ok
        { real_effort_income := income
          treatment := none
          audit_weight := Constants.default_audit_prob }
    else
      let t := ctx.vote_round_treatment
      if t = "EndoYes" ∨ t = "ExoYes" then
        Except.ok
          { real_effort_income := income
            treatment := some t
            audit_weight := Constants.modified_audit_prob }
      else
        Except.ok
          { real_effort_income := income
            treatment := some t
            audit_weight := Constants.default_audit_prob }

/-! ### Concrete inputs used by the theorems below -/

/-- The spec's settlement example: reported incomes 100, 200, 300. -/
def exPlayers : Fin 3 → EconPlayer :=
  ![{ real_effort_income := 0, reported_income := 100 },
    { real_effort_income := 0, reported_income := 200 },
    { real_effort_income := 0, reported_income := 300 }]

/-- The spec's audit example: first player has real income 500, reported 100. -/
def exAudPlayers : Fin 3 → EconPlayer :=
  ![{ real_effort_income := 500, reported_income := 100 },
    { real_effort_income := 0, reported_income := 0 },
    { real_effort_income := 0, reported_income := 0 }]

/-! ### Claims about the settlement engine -/

/-- Claim C1: in `set_payoffs`, each player's `tax_paid` is
`reported_income * 0.4`, `total_tax_paid` is the sum of the three
`tax_paid` values, `individual_share` is `total_tax_paid * 0.5 / 3`, the
group fields are identical whatever the audit draws are, and the
`[100, 200, 300]` example yields taxes `[40, 80, 120]`, total `240` and
share `40`. -/
theorem C1_settlement_tax_and_share :
    (∀ (audit : Fin 3 → Bool) (ps : Fin 3 → EconPlayer) (i : Fin 3),
        ((set_payoffs audit ps).2 i).tax_paid = (ps i).reported_income * Constants.tax_rate) ∧
    Constants.tax_rate = 4 / 10 ∧
    (∀ (audit : Fin 3 → Bool) (ps : Fin 3 → EconPlayer),
        (set_payoffs audit ps).1.total_tax_paid =
          ((set_payoffs audit ps).2 0).tax_paid + ((set_payoffs audit ps).2 1).tax_paid +
            ((set_payoffs audit ps).2 2).tax_paid) ∧
    (∀ (audit : Fin 3 → Bool) (ps : Fin 3 → EconPlayer),
        (set_payoffs audit ps).1.individual_share =
          (set_payoffs audit ps).1.total_tax_paid * (5 / 10 : ℚ) / 3) ∧
    (∀ (audit audit' : Fin 3 → Bool) (ps : Fin 3 → EconPlayer),
        (set_payoffs audit ps).1 = (set_payoffs audit' ps).1) ∧
    (∀ audit : Fin 3 → Bool,
        ((set_payoffs audit exPlayers).2 0).tax_paid = 40 ∧
        ((set_payoffs audit exPlayers).2 1).tax_paid = 80 ∧
        ((set_payoffs audit exPlayers).2 2).tax_paid = 120 ∧
        (set_payoffs audit exPlayers).1.total_tax_paid = 240 ∧
        (set_payoffs audit exPlayers).1.individual_share = 40) := by
  refine ⟨fun _ _ _ => rfl, rfl, fun _ _ => rfl, ?_, fun _ _ _ => rfl, ?_⟩
  · intro audit ps
    show (set_payoffs audit ps).1.total_tax_paid * Constants.redistribution_multiplier /
        (Constants.players_per_group : ℚ) = _
    norm_num [Constants.redistribution_multiplier, Constants.players_per_group]
  · intro audit
    refine ⟨?_, ?_, ?_, ?_, ?_⟩ <;>
      norm_num [set_payoffs, exPlayers, Constants.tax_rate,
        Constants.redistribution_multiplier, Constants.players_per_group]

/-- Claim C2: in `set_payoffs`, a non-audited player's payoff is
`real_effort_income - tax_paid + individual_share`, an audited player
additionally loses `penalty_multiplier * tax_rate * (real - reported)` with
`penalty_multiplier = 1 / tax_rate = 2.5`, and on the spec's example the
penalty is `2.5 * 0.4 * (500 - 100) = 400`. -/
theorem C2_payoff_formula :
    (∀ (audit : Fin 3 → Bool) (ps : Fin 3 → EconPlayer) (i : Fin 3),
        ((set_payoffs audit ps).2 i).payoff =
          (ps i).real_effort_income - ((set_payoffs audit ps).2 i).tax_paid +
              (set_payoffs audit ps).1.individual_share -
            (if audit i then
              Constants.penalty_multiplier * Constants.tax_rate *
                ((ps i).real_effort_income - (ps i).reported_income)
            else 0)) ∧
    Constants.penalty_multiplier = 1 / Constants.tax_rate ∧
    Constants.penalty_multiplier = 5 / 2 ∧
    Constants.penalty_multiplier * Constants.tax_rate * ((500 : ℚ) - 100) = 400 ∧
    ((set_payoffs ![true, false, false] exAudPlayers).2 0).if_audited = 1 ∧
    ((set_payoffs ![true, false, false] exAudPlayers).2 0).payoff =
      500 - 40 + (set_payoffs ![true, false, false] exAudPlayers).1.individual_share - 400 := by
  refine ⟨?_, by norm_num [Constants.penalty_multiplier],
    by norm_num [Constants.penalty_multiplier, Constants.tax_rate],
    by norm_num [Constants.penalty_multiplier, Constants.tax_rate], rfl, ?_⟩
  · intro audit ps i
    by_cases h : audit i <;>
      simp [set_payoffs, h]
  · norm_num [set_payoffs, exAudPlayers, Constants.penalty_multiplier,
      Constants.tax_rate, Constants.redistribution_multiplier, Constants.players_per_group]

/-! ### Claims about voting and treatment -/

/-- The number of `if_vote == true` among the three group members. -/
def countYes (votes : Fin 3 → Bool) : ℕ :=
  (if votes 0 then 1 else 0) + (if votes 1 then 1 else 0) + (if votes 2 then 1 else 0)

/-- `total > players_per_group / 2` (Python true division, so `3 / 2 = 1.5`)
holds exactly for counts of 2 or more. -/
theorem half_vote_iff (n : ℕ) :
    ((Constants.players_per_group : ℚ) / 2 < (n : ℚ)) ↔ 2 ≤ n := by
  have h3 : ((Constants.players_per_group : ℚ)) = 3 := by
    norm_num [Constants.players_per_group]
  rw [h3]
  constructor
  · intro h
    by_contra hn
    push_neg at hn
    interval_cases n <;> norm_num at h
  · intro h
    have h2 : (2 : ℚ) ≤ (n : ℚ) := by exact_mod_cast h
    linarith

/-- Claim C3: in `assign_treatment`, `total_if_vote` is the yes-vote count
whatever the coins do; without the override the treatment is `EndoYes`
exactly when at least 2 of 3 voted yes (strictly more than half) and
`if_override` is false; with the override the treatment is `ExoYes` or
`ExoNo` selected by the second coin alone (independent of the votes) and
`if_override` is true. -/
theorem C3_assign_treatment_spec :
    ∀ (dice : Bool) (votes : Fin 3 → Bool),
      (assign_treatment false dice votes).total_if_vote = countYes votes ∧
      (assign_treatment true dice votes).total_if_vote = countYes votes ∧
      (assign_treatment false dice votes).treatment =
        (if 2 ≤ countYes votes then "EndoYes" else "EndoNo") ∧
      (assign_treatment false dice votes).if_override = false ∧
      (assign_treatment true dice votes).treatment =
        (if dice then "ExoYes" else "ExoNo") ∧
      (assign_treatment true dice votes).if_override = true := by
  intro dice votes
  refine ⟨rfl, rfl, ?_, rfl, by cases dice <;> rfl, rfl⟩
  show (if (Constants.players_per_group : ℚ) / 2 < ((countYes votes : ℕ) : ℚ) then
      "EndoYes" else "EndoNo") = _
  rcases le_or_lt 2 (countYes votes) with h2 | h2
  · rw [if_pos ((half_vote_iff _).2 h2), if_pos h2]
  · rw [if_neg (fun hc => absurd ((half_vote_iff _).1 hc) (Nat.not_le.2 h2)),
      if_neg (Nat.not_le.2 h2)]

/-! ### Claims about round finalization (`Game.before_next_page`) -/

/-- Claim C4: on a successful run of `before_next_page`, rounds after the
vote round copy the treatment stored at the vote round and derive
`audit_weight` from it (`0.5` for a yes label, `0.2` otherwise), while
rounds before the vote round get the default `audit_weight` `0.2` (and do
not write `treatment`). -/
theorem C4_audit_weight_lookup :
    ∀ (ctx : RoundCtx) (out : RoundOut), before_next_page ctx = Except.ok out →
      out.treatment =
        (if ctx.round_number < Constants.vote_round then none
         else some ctx.vote_round_treatment) ∧
      out.audit_weight =
        (if ctx.round_number < Constants.vote_round then Constants.default_audit_prob
         else if ctx.vote_round_treatment = "EndoYes" ∨ ctx.vote_round_treatment = "ExoYes" then
           Constants.modified_audit_prob
         else Constants.default_audit_prob) := by
  intro ctx out h
  simp only [before_next_page] at h
  split at h
  · exact absurd h (by simp)
  · split at h
    · rename_i hlt
      rw [Except.ok.injEq] at h
      subst h
      rw [if_pos hlt, if_pos hlt]
      exact ⟨rfl, rfl⟩
    · rename_i hlt
      split at h
      · rename_i hyes
        rw [Except.ok.injEq] at h
        subst h
        rw [if_neg hlt, if_neg hlt, if_pos hyes]
        exact ⟨rfl, rfl⟩
      · rename_i hyes
        rw [Except.ok.injEq] at h
        subst h
        rw [if_neg hlt, if_neg hlt, if_neg hyes]
        exact ⟨rfl, rfl⟩

/-- A round-3 context used to instantiate `C4_audit_weight_lookup`. -/
def ctx4 : RoundCtx :=
  { round_number := 3, vote_round_treatment := "EndoYes", num_correct := 2,
    iteration := 0, timeout_happened := true, max_iterations := none }

/-- The output `before_next_page` produces on `ctx4`. -/
def out4 : RoundOut :=
  { real_effort_income := 200, treatment := some "EndoYes",
    audit_weight := Constants.modified_audit_prob }

/-- Witness for claim C4 at the concrete context `ctx4`. -/
theorem C4_audit_weight_lookup_witness :
    out4.treatment =
      (if ctx4.round_number < Constants.vote_round then none
       else some ctx4.vote_round_treatment) ∧
    out4.audit_weight =
      (if ctx4.round_number < Constants.vote_round then Constants.default_audit_prob
       else if ctx4.vote_round_treatment = "EndoYes" ∨ ctx4.vote_round_treatment = "ExoYes" then
         Constants.modified_audit_prob
       else Constants.default_audit_prob) :=
  C4_audit_weight_lookup ctx4 out4 (by with_unfolding_all rfl)

/-- A context with no timeout, a configured cap of 5 puzzles, and an
iteration counter of 0 (budget clearly not exhausted). -/
def ctx9 : RoundCtx :=
  { round_number := 1, vote_round_treatment := "", num_correct := 3,
    iteration := 0, timeout_happened := false, max_iterations := some 5 }

/-- Claim C9 as stated is false on the code: with no timeout and the
iteration budget not exhausted (cap 5, iteration 0), `before_next_page`
does not raise — it returns normally and sets `real_effort_income`,
because the code only tests the truthiness of the configured
`max_iterations`, never the player's iteration. -/
theorem C9_counterexample :
    ctx9.timeout_happened = false ∧
    ctx9.max_iterations = some 5 ∧
    ctx9.iteration = 0 ∧
    before_next_page ctx9 =
      Except.ok { real_effort_income := 300, treatment := none,
                  audit_weight := Constants.default_audit_prob } :=
  ⟨rfl, rfl, rfl, by with_unfolding_all rfl⟩

/-- Claim C9 amended: `before_next_page` raises the integrity error exactly
when no timeout happened and the configured `max_iterations` is falsy
(`None` or `0`); whenever it returns normally it sets
`real_effort_income = num_correct * real_effort_multiplier`. -/
theorem C9_integrity_check_amended :
    ∀ ctx : RoundCtx,
      (before_next_page ctx = Except.error "malicious page submission" ↔
        ctx.timeout_happened = false ∧ optFalsy ctx.max_iterations = true) ∧
      (∀ out : RoundOut, before_next_page ctx = Except.ok out →
        out.real_effort_income = (ctx.num_correct : ℚ) * Constants.real_effort_multiplier) := by
  intro ctx
  constructor
  · simp only [before_next_page]
    split
    · rename_i hcond
      simp only [Bool.and_eq_true, Bool.not_eq_true'] at hcond
      simp [hcond.1, hcond.2]
    · rename_i hcond
      simp only [Bool.and_eq_true, Bool.not_eq_true'] at hcond
      constructor
      · intro h
        split at h
        · simp at h
        · split at h <;> simp at h
      · intro hb
        exact absurd ⟨hb.1, hb.2⟩ hcond
  · intro out h
    simp only [before_next_page] at h
    split at h
    · exact absurd h (by simp)
    · split at h
      · rw [Except.ok.injEq] at h
        subst h
        rfl
      · split at h <;>
        · rw [Except.ok.injEq] at h
          subst h
          rfl

/-- A legitimate-timeout context used to instantiate the amended C9. -/
def ctx9ok : RoundCtx :=
  { round_number := 1, vote_round_treatment := "", num_correct := 3,
    iteration := 0, timeout_happened := true, max_iterations := none }

/-- The output `before_next_page` produces on `ctx9ok`. -/
def out9 : RoundOut :=
  { real_effort_income := 300, treatment := none,
    audit_weight := Constants.default_audit_prob }

/-- Witness for the amended claim C9 at the concrete context `ctx9ok`. -/
theorem C9_integrity_check_amended_witness :
    out9.real_effort_income = ((3 : Int) : ℚ) * Constants.real_effort_multiplier :=
  (C9_integrity_check_amended ctx9ok).2 out9 (by with_unfolding_all rfl)

/-! ### Claims about the live puzzle protocol (`play_game`) -/

/-- A concrete task module (transcription-style: the answer must equal the
stored solution). -/
def tm0 : TaskModule :=
  { gen_fields := fun _ => ("abc", "abc")
    is_correct := fun a z => a == z.solution }

/-- Concrete session parameters (`puzzle_delay = retry_delay = 1`,
two attempts per puzzle, no iteration cap, non-debug). -/
def params0 : Params :=
  { retry_delay := 1, puzzle_delay := 1, attempts_per_puzzle := 2,
    max_iterations := none, debug := false }

/-- Claim C8: a `next` message while the current puzzle is unanswered fails
with the skip error and leaves the state untouched (no new puzzle, same
iteration), and an immediately repeated `next` fails the same way. -/
theorem C8_skip_unsolved :
    ∀ (params : Params) (tm : TaskModule) (now now2 : ℚ) (st : GState) (cur : PuzzleRec),
      get_current_puzzle st = Except.ok (some cur) → cur.response = none →
      play_game params tm now st Message.next =
        (st, Except.error "trying to skip over unsolved puzzle") ∧
      play_game params tm now2 (play_game params tm now st Message.next).1 Message.next =
        (st, Except.error "trying to skip over unsolved puzzle") := by
  intro params tm now now2 st cur h hr
  have h1 : play_game params tm now st Message.next =
      (st, Except.error "trying to skip over unsolved puzzle") := by
    simp only [play_game, h, hr]
  refine ⟨h1, ?_⟩
  rw [h1]
  simp only [play_game, h, hr]

/-- An issued-but-unanswered puzzle at iteration 1. -/
def pz8 : PuzzleRec :=
  { iteration := 1, attempts := 0, timestamp := 0, text := "abc", solution := "abc",
    response := none, response_timestamp := none, is_correct := none }

/-- State holding `pz8` as the current puzzle. -/
def st8 : GState :=
  { player := { iteration := 1, num_trials := 0, num_correct := 0, num_failed := 0 },
    puzzles := [pz8] }

/-- Witness for claim C8 at the concrete state `st8`. -/
theorem C8_skip_unsolved_witness :
    play_game params0 tm0 5 st8 Message.next =
      (st8, Except.error "trying to skip over unsolved puzzle") ∧
    play_game params0 tm0 6 (play_game params0 tm0 5 st8 Message.next).1 Message.next =
      (st8, Except.error "trying to skip over unsolved puzzle") :=
  C8_skip_unsolved params0 tm0 5 6 st8 pz8 rfl rfl

/-- Claim C5 amended: with an already-answered current puzzle, `next` fails
with the rate error exactly when `now` is within `puzzle_delay` of the
puzzle's creation `timestamp` (not of its response time), and otherwise
(cap permitting) issues a new puzzle. -/
theorem C5_next_delay_amended :
    ∀ (params : Params) (tm : TaskModule) (now : ℚ) (st : GState) (cur : PuzzleRec) (r : String),
      get_current_puzzle st = Except.ok (some cur) → cur.response = some r →
      ((play_game params tm now st Message.next).2 = Except.error "retrying too fast" ↔
        now < cur.timestamp + params.puzzle_delay) ∧
      (now < cur.timestamp + params.puzzle_delay →
        play_game params tm now st Message.next = (st, Except.error "retrying too fast")) ∧
      (¬ now < cur.timestamp + params.puzzle_delay →
        some cur.iteration ≠ params.max_iterations →
        play_game params tm now st Message.next =
          ((generate_puzzle tm now st).1,
            Except.ok (Reply.puzzleMsg (generate_puzzle tm now st).2
              (get_progress (generate_puzzle tm now st).1.player)))) := by
  intro params tm now st cur r h hr
  by_cases hd : now < cur.timestamp + params.puzzle_delay
  · have h1 : play_game params tm now st Message.next =
        (st, Except.error "retrying too fast") := by
      simp only [play_game, h, hr, if_pos hd]
    rw [h1]
    exact ⟨by simp [hd], fun _ => rfl, fun hc => absurd hd hc⟩
  · by_cases hm : some cur.iteration = params.max_iterations
    · have h1 : play_game params tm now st Message.next =
          (st, Except.ok (Reply.status (get_progress st.player) none (some 0))) := by
        simp only [play_game, h, hr, if_neg hd, if_pos hm]
      rw [h1]
      exact ⟨by simp [hd], fun hc => absurd hc hd, fun _ hmm => absurd hm hmm⟩
    · have h1 : play_game params tm now st Message.next =
          ((generate_puzzle tm now st).1,
            Except.ok (Reply.puzzleMsg (generate_puzzle tm now st).2
              (get_progress (generate_puzzle tm now st).1.player))) := by
        simp only [play_game, h, hr, if_neg hd, if_neg hm]
      rw [h1]
      exact ⟨by simp [hd], fun hc => absurd hc hd, fun _ _ => rfl⟩

/-- A puzzle created at time 0 whose (wrong) answer was recorded at time 5. -/
def pz5 : PuzzleRec :=
  { iteration := 1, attempts := 1, timestamp := 0, text := "abc", solution := "abc",
    response := some "x", response_timestamp := some 5, is_correct := some false }

/-- State holding `pz5` as the current puzzle. -/
def st5 : GState :=
  { player := { iteration := 1, num_trials := 1, num_correct := 0, num_failed := 1 },
    puzzles := [pz5] }

/-- Claim C5 as stated is false on the code: at `now = 5.5`, only half a
second after the response at time 5 and with `puzzle_delay = 1`, the claim
demands a protocol error, but `play_game` happily issues a new puzzle — the
code measures the delay from the puzzle's creation `timestamp` (0), not
from its response time. -/
theorem C5_counterexample :
    pz5.response_timestamp = some 5 ∧
    (11 / 2 : ℚ) < 5 + params0.puzzle_delay ∧
    play_game params0 tm0 (11 / 2) st5 Message.next =
      ((generate_puzzle tm0 (11 / 2) st5).1,
        Except.ok (Reply.puzzleMsg (generate_puzzle tm0 (11 / 2) st5).2
          (get_progress (generate_puzzle tm0 (11 / 2) st5).1.player))) := by
  refine ⟨rfl, by norm_num [params0], by with_unfolding_all rfl⟩

/-- Witness for the amended claim C5 at the concrete state `st5` (`next`
half a second after the puzzle was created is rejected). -/
theorem C5_next_delay_amended_witness :
    play_game params0 tm0 (1 / 2) st5 Message.next =
      (st5, Except.error "retrying too fast") :=
  (C5_next_delay_amended params0 tm0 (1 / 2) st5 pz5 "x" rfl rfl).2.1
    (by norm_num [pz5, params0])

/-- Claim C6: a successful retry of an already-answered puzzle first
reverses the previous attempt's effect on the counters and then applies the
new attempt's, so `num_trials` is unchanged (each puzzle counted once) and
`num_correct` / `num_failed` reflect only the latest judged attempt. -/
theorem C6_retry_counters :
    ∀ (params : Params) (tm : TaskModule) (now : ℚ) (st st2 : GState) (cur : PuzzleRec)
      (r a : String) (isc : Bool) (rl : Int) (p : Progress),
      get_current_puzzle st = Except.ok (some cur) → cur.response = some r →
      play_game params tm now st (Message.answer (some a)) =
        (st2, Except.ok (Reply.feedback isc rl p)) →
      st2.player.num_trials = st.player.num_trials ∧
      st2.player.num_correct =
        st.player.num_correct - (if cur.is_correct = some true then 1 else 0) +
          (if isc then 1 else 0) ∧
      st2.player.num_failed =
        st.player.num_failed - (if cur.is_correct = some true then 0 else 1) +
          (if isc then 0 else 1) := by
  intro params tm now st st2 cur r a isc rl p h hr hp
  by_cases hat : params.attempts_per_puzzle ≤ cur.attempts
  · simp only [play_game, h, hr, if_pos hat] at hp
    rw [Prod.mk.injEq] at hp
    exact absurd hp.2 (by simp)
  · cases hrts : cur.response_timestamp with
    | none =>
      simp only [play_game, h, hr, if_neg hat, hrts] at hp
      rw [Prod.mk.injEq] at hp
      exact absurd hp.2 (by simp)
    | some rts =>
      by_cases hdel : now < rts + params.retry_delay
      · simp only [play_game, h, hr, if_neg hat, hrts, if_pos hdel] at hp
        rw [Prod.mk.injEq] at hp
        exact absurd hp.2 (by simp)
      · by_cases ha : a = ""
        · subst ha
          simp only [play_game, h, hr, if_neg hat, hrts, if_neg hdel] at hp
          rw [Prod.mk.injEq] at hp
          exact absurd hp.2 (by simp)
        · simp only [play_game, h, hr, if_neg hat, hrts, if_neg hdel, if_neg ha] at hp
          rw [Prod.mk.injEq, Except.ok.injEq, Reply.feedback.injEq] at hp
          obtain ⟨hst, hisc, -, -⟩ := hp
          subst hst
          subst hisc
          refine ⟨?_, ?_, ?_⟩ <;>
            (split <;> split <;> simp_all)

/-- A puzzle answered wrongly at time 0 (attempt 1 of 2). -/
def pz6 : PuzzleRec :=
  { iteration := 1, attempts := 1, timestamp := 0, text := "t", solution := "abc",
    response := some "x", response_timestamp := some 0, is_correct := some false }

/-- State holding `pz6`, with the first attempt already counted
(`num_trials = 1`, `num_failed = 1`). -/
def st6 : GState :=
  { player := { iteration := 1, num_trials := 1, num_correct := 0, num_failed := 1 },
    puzzles := [pz6] }

/-- The state after retrying `pz6` with the correct answer at time 5. -/
def st6b : GState :=
  { player := { iteration := 1, num_trials := 1, num_correct := 1, num_failed := 0 },
    puzzles :=
      [{ iteration := 1, attempts := 2, timestamp := 0, text := "t", solution := "abc",
         response := some "abc", response_timestamp := some 5, is_correct := some true }] }

/-- The progress dict reported after that retry. -/
def prog6 : Progress :=
  { num_trials := 1, num_correct := 1, num_incorrect := 0, iteration := 1 }

/-- Witness for claim C6 at the concrete retry `st6` → `st6b`. -/
theorem C6_retry_counters_witness :
    st6b.player.num_trials = st6.player.num_trials ∧
    st6b.player.num_correct =
      st6.player.num_correct - (if pz6.is_correct = some true then 1 else 0) +
        (if true then 1 else 0) ∧
    st6b.player.num_failed =
      st6.player.num_failed - (if pz6.is_correct = some true then 0 else 1) +
        (if true then 0 else 1) :=
  C6_retry_counters params0 tm0 5 st6 st6b pz6 "x" "abc" true 0 prog6 rfl rfl
    (by with_unfolding_all rfl)

/-- A puzzle answered wrongly at time 0, with one attempt left. -/
def pz10 : PuzzleRec :=
  { iteration := 1, attempts := 1, timestamp := 0, text := "t", solution := "abc",
    response := some "x", response_timestamp := some 0, is_correct := some false }

/-- State holding `pz10`, with the first attempt counted. -/
def st10 : GState :=
  { player := { iteration := 1, num_trials := 1, num_correct := 0, num_failed := 1 },
    puzzles := [pz10] }

/-- Claim C10 fails on the code: retrying `pz10` with an empty answer at
time 5 aborts with the bogus-answer error, but only after the undo step has
already run — the returned player has `num_trials = 0` and `num_failed = 0`
although the original state had both at 1, so the failed interaction is not
atomic. -/
theorem C10_bogus_retry_mutates :
    st10.player.num_trials = 1 ∧ st10.player.num_failed = 1 ∧
    play_game params0 tm0 5 st10 (Message.answer (some "")) =
      ({ player := { iteration := 1, num_trials := 0, num_correct := 0, num_failed := 0 },
         puzzles := [pz10] },
       Except.error "bogus answer") :=
  ⟨rfl, rfl, by with_unfolding_all rfl⟩

/-! ### Traces of protocol steps (claim C7) -/

/-- Whether a reply is a freshly issued puzzle (`type='puzzle'`). -/
def isIssued : Except String Reply → Bool
  | Except.ok (Reply.puzzleMsg _ _) => true
  | _ => false

/-- A player's state at the start of a round: counters at their model
defaults, an empty puzzle store. -/
def initState : GState :=
  { player := { iteration := 0, num_trials := 0, num_correct := 0, num_failed := 0 },
    puzzles := [] }

/-- Run a list of timed messages through `play_game`, keeping the state a
failed interaction leaves behind. -/
def runTrace (params : Params) (tm : TaskModule) : GState → List (ℚ × Message) → GState
  | st, [] => st
  | st, e :: rest => runTrace params tm (play_game params tm e.1 st e.2).1 rest

/-- The number of steps of the trace whose reply is a fresh puzzle, i.e.
the number of successful `issue` transitions. -/
def countIssued (params : Params) (tm : TaskModule) : GState → List (ℚ × Message) → ℕ
  | _, [] => 0
  | st, e :: rest =>
    (if isIssued (play_game params tm e.1 st e.2).2 then 1 else 0) +
      countIssued params tm (play_game params tm e.1 st e.2).1 rest

/-- Store invariant: the iteration column of the player's puzzle store is
exactly `[1, …, player.iteration]`. -/
def storeInv (st : GState) : Prop :=
  st.puzzles.map PuzzleRec.iteration = List.range' 1 st.player.iteration

/-- The puzzle `get_current_puzzle` returns carries the player's current
iteration value (it came out of the filter). -/
theorem get_current_puzzle_iteration (st : GState) (cur : PuzzleRec) :
    get_current_puzzle st = Except.ok (some cur) → cur.iteration = st.player.iteration := by
  intro h
  unfold get_current_puzzle at h
  split at h
  · simp at h
  · rename_i z hz
    rw [Except.ok.injEq, Option.some.injEq] at h
    rw [h] at hz
    have hmem : cur ∈ st.puzzles.filter (fun w => w.iteration == st.player.iteration) := by
      rw [hz]
      exact List.mem_singleton_self _
    simpa using List.of_mem_filter hmem
  · simp at h

/-- Overwriting the row whose iteration is `n` with a row whose iteration
is also `n` leaves the store's iteration column unchanged. -/
theorem map_iteration_update (l : List PuzzleRec) (n : ℕ) (c : PuzzleRec)
    (hc : c.iteration = n) :
    (l.map (fun z => if z.iteration == n then c else z)).map PuzzleRec.iteration =
      l.map PuzzleRec.iteration := by
  rw [List.map_map]
  apply List.map_congr_left
  intro z _
  simp only [Function.comp_apply]
  split
  · rename_i hz
    have hzn : z.iteration = n := by simpa using hz
    rw [hc, hzn]
  · rfl

/-- One protocol step either leaves the store's iteration column and the
player's counter untouched, or — exactly when the reply is a fresh
puzzle — appends the next iteration value and increments the counter. -/
theorem play_game_step (params : Params) (tm : TaskModule) (now : ℚ) (st : GState)
    (msg : Message) :
    (play_game params tm now st msg).1.puzzles.map PuzzleRec.iteration =
      st.puzzles.map PuzzleRec.iteration ++
        (if isIssued (play_game params tm now st msg).2 then [st.player.iteration + 1] else []) ∧
    (play_game params tm now st msg).1.player.iteration =
      st.player.iteration +
        (if isIssued (play_game params tm now st msg).2 then 1 else 0) := by
  cases hcp : get_current_puzzle st with
  | error e => simp [play_game, hcp, isIssued]
  | ok current =>
    cases msg with
    | load => simp [play_game, hcp, isIssued]
    | other => simp [play_game, hcp, isIssued]
    | cheat =>
      cases current <;> simp only [play_game, hcp] <;> split <;> simp [isIssued]
    | next =>
      cases current with
      | none => simp [play_game, hcp, isIssued, generate_puzzle]
      | some cur =>
        cases hres : cur.response with
        | none => simp [play_game, hcp, hres, isIssued]
        | some r =>
          by_cases hd : now < cur.timestamp + params.puzzle_delay
          · simp [play_game, hcp, hres, if_pos hd, isIssued]
          · by_cases hm : some cur.iteration = params.max_iterations
            · simp [play_game, hcp, hres, if_neg hd, if_pos hm, isIssued]
            · simp [play_game, hcp, hres, if_neg hd, if_neg hm, isIssued, generate_puzzle]
    | answer ans =>
      cases current with
      | none => simp [play_game, hcp, isIssued]
      | some cur =>
        have hit : cur.iteration = st.player.iteration :=
          get_current_puzzle_iteration st cur hcp
        have hupd : ∀ c : PuzzleRec, c.iteration = st.player.iteration →
            (st.puzzles.map
                (fun z => if z.iteration == st.player.iteration then c else z)).map
              PuzzleRec.iteration = st.puzzles.map PuzzleRec.iteration :=
          fun c hc => map_iteration_update st.puzzles st.player.iteration c hc
        cases hres : cur.response with
        | none =>
          cases ans with
          | none => simp [play_game, hcp, hres, isIssued]
          | some a =>
            by_cases ha : a = ""
            · subst ha
              simp [play_game, hcp, hres, isIssued]
            · constructor
              · simp only [play_game, hcp, hres, if_neg ha, isIssued,
                  Bool.false_eq_true, if_false, List.append_nil]
                exact hupd _ hit
              · simp [play_game, hcp, hres, if_neg ha, isIssued,
                  apply_ite PlayerState.iteration]
        | some r =>
          by_cases hat : params.attempts_per_puzzle ≤ cur.attempts
          · simp [play_game, hcp, hres, if_pos hat, isIssued]
          · cases hrts : cur.response_timestamp with
            | none => simp [play_game, hcp, hres, if_neg hat, hrts, isIssued]
            | some rts =>
              by_cases hdel : now < rts + params.retry_delay
              · simp [play_game, hcp, hres, if_neg hat, hrts, if_pos hdel, isIssued]
              · cases ans with
                | none =>
                  constructor
                  · simp [play_game, hcp, hres, if_neg hat, hrts, if_neg hdel, isIssued]
                  · simp [play_game, hcp, hres, if_neg hat, hrts, if_neg hdel, isIssued,
                      apply_ite PlayerState.iteration]
                | some a =>
                  by_cases ha : a = ""
                  · subst ha
                    constructor
                    · simp [play_game, hcp, hres, if_neg hat, hrts, if_neg hdel, isIssued]
                    · simp [play_game, hcp, hres, if_neg hat, hrts, if_neg hdel, isIssued,
                        apply_ite PlayerState.iteration]
                  · constructor
                    · simp only [play_game, hcp, hres, if_neg hat, hrts, if_neg hdel,
                        if_neg ha, isIssued, Bool.false_eq_true, if_false, List.append_nil]
                      exact hupd _ hit
                    · simp [play_game, hcp, hres, if_neg hat, hrts, if_neg hdel,
                        if_neg ha, isIssued, apply_ite PlayerState.iteration]

/-- `storeInv` is preserved by every protocol step. -/
theorem storeInv_step (params : Params) (tm : TaskModule) (now : ℚ) (st : GState)
    (msg : Message) (h : storeInv st) : storeInv (play_game params tm now st msg).1 := by
  obtain ⟨h1, h2⟩ := play_game_step params tm now st msg
  unfold storeInv at h ⊢
  rw [h1, h2, h]
  by_cases hi : isIssued (play_game params tm now st msg).2
  · rw [if_pos hi, if_pos hi, List.range'_concat]
    simp [Nat.add_comm]
  · rw [if_neg hi, if_neg hi, List.append_nil, Nat.add_zero]

/-- Along any trace, the iteration counter advances by exactly the number
of issued puzzles, and `storeInv` is preserved. -/
theorem runTrace_iteration (params : Params) (tm : TaskModule) :
    ∀ (tr : List (ℚ × Message)) (st : GState),
      (runTrace params tm st tr).player.iteration =
        st.player.iteration + countIssued params tm st tr ∧
      (storeInv st → storeInv (runTrace params tm st tr)) := by
  intro tr
  induction tr with
  | nil => intro st; exact ⟨(Nat.add_zero _).symm, fun h => h⟩
  | cons e rest ih =>
    intro st
    obtain ⟨h1, h2⟩ := play_game_step params tm e.1 st e.2
    constructor
    · have hrec := (ih (play_game params tm e.1 st e.2).1).1
      simp only [runTrace, countIssued]
      rw [hrec, h2]
      omega
    · intro hinv
      exact (ih _).2 (storeInv_step params tm e.1 st e.2 hinv)

/-- Claim C7: starting from a fresh player, after any sequence of protocol
messages the player's `iteration` equals the number of successful issue
transitions of the trace, and at most one stored puzzle carries the
player's current iteration value. -/
theorem C7_iteration_counts_issues :
    ∀ (params : Params) (tm : TaskModule) (tr : List (ℚ × Message)),
      (runTrace params tm initState tr).player.iteration =
        countIssued params tm initState tr ∧
      ((runTrace params tm initState tr).puzzles.filter
          (fun z => z.iteration == (runTrace params tm initState tr).player.iteration)).length ≤
        1 := by
  intro params tm tr
  obtain ⟨h1, h2⟩ := runTrace_iteration params tm tr initState
  have hinv : storeInv (runTrace params tm initState tr) := h2 (by rfl)
  refine ⟨by simpa [initState] using h1, ?_⟩
  have hlen : ((runTrace params tm initState tr).puzzles.filter
        (fun z => z.iteration == (runTrace params tm initState tr).player.iteration)).length =
      ((runTrace params tm initState tr).puzzles.map PuzzleRec.iteration).count
        (runTrace params tm initState tr).player.iteration := by
    rw [← List.countP_eq_length_filter, List.count, List.countP_map]
    rfl
  rw [hlen, hinv]
  exact List.nodup_iff_count_le_one.mp (List.nodup_range' 1 _) _

end OneVote
